import Mathlib

/-!
# Lunasa allocation reference counting and the OpInterjobPing identity

A shallow embedding of `src/lunasa/common/Allocation.hh` (the structs
`AllocationSegment`, `allocation_local_t`, `allocation_header_t` and
`allocation_s` with its member functions) and of the inline accessors of
`examples/opbox/advanced/job2job/OpInterjobPing.hh`.

Conventions of the embedding:

* pointers (data pointers, function pointers, handles) are natural numbers,
  `nullptr` being `0`;
* the `std::atomic_int` reference count is an `Int`; every arithmetic update
  goes through `wrapInt`, the two-complement wrap to 32 bits;
* calls that leave the translation unit (a segment cleanup function, the
  virtual `AllocatorBase::Free`) are recorded, in call order, in a trace of
  `Effect`s carried next to the allocation;
* `assert` is the active `<assert.h>` assertion: a failing assertion stops
  the program, and the result keeps the state reached at that point.
-/

namespace lunasa

/-- The null pointer. -/
def nullptr : Nat := 0

/-- Largest value of a C `int` (32 bits). -/
def INT_MAX : Int := 2147483647

/-- Smallest value of a C `int` (32 bits). -/
def INT_MIN : Int := -2147483648

/-- Wrap of an integer to the range of a 32-bit signed `int`, as done by the
arithmetic of `std::atomic_int`. -/
def wrapInt (x : Int) : Int := (x + 2147483648) % 4294967296 - 2147483648

/-- Struct `AllocationSegment` of Allocation.hh, lines 32 to 53. -/
structure AllocationSegment where
  /-- Pointer to original memory. -/
  buffer_ptr : Nat
  /-- Handle to pinned memory. -/
  net_buffer_handle : Nat
  /-- Offset into pinned memory (`uint32_t`). -/
  net_buffer_offset : Nat
  /-- Number of bytes (`uint32_t`). -/
  size : Nat
  /-- Function that releases the memory referenced by `buffer_ptr`
  (a function pointer, `0` when null). -/
  cleanup_func : Nat
  deriving DecidableEq

/-- Struct `allocation_local_t` of Allocation.hh, lines 56 to 67. The member
`user_data_segments` is a pointer to a vector: `none` is the null pointer. -/
structure allocation_local_t where
  net_buffer_handle : Nat
  ref_count : Int
  allocator : Nat
  net_buffer_offset : Nat
  allocated_bytes : Nat
  user_data_segments : Option (List AllocationSegment)
  deriving DecidableEq

/-- Struct `allocation_header_t` of Allocation.hh, lines 69 to 75 (the
`FUTURE` member is compiled out). -/
structure allocation_header_t where
  meta_bytes : Nat
  data_bytes : Nat
  deriving DecidableEq

/-- Struct `allocation_s` of Allocation.hh, lines 81 to 129. The member
`local` is spelled `local_` (the bare word is reserved in Lean); the flexible
array member `meta_and_user_data` carries no bookkeeping and is left out. -/
structure allocation_s where
  local_ : allocation_local_t
  header : allocation_header_t
  deriving DecidableEq

/-- The typedef name of `allocation_s`. -/
abbrev allocation_t := allocation_s

/-- A call that leaves Allocation.hh. -/
inductive Effect where
  /-- The call `(*cleanup_func)(arg)` of a segment cleanup function. -/
  | cleanup (cleanup_func : Nat) (arg : Nat)
  /-- The call `allocator->Free(this)` on the allocation at hand. -/
  | free (allocator : Nat)
  deriving DecidableEq

/-- An allocation together with the calls it has issued so far. -/
structure Machine where
  self : allocation_t
  trace : List Effect
  deriving DecidableEq

/-- Outcome of a member function: it returns a value, or an assertion fails
and the program stops in the state reached at that point. -/
inductive Result (α : Type) where
  | ret (value : α) (m : Machine)
  | assertFail (msg : String) (m : Machine)
  deriving DecidableEq

/-- The state in which a call ended. -/
def Result.machine {α : Type} : Result α → Machine
  | .ret _ m => m
  | .assertFail _ m => m

/-- The returned value, when the call returned. -/
def Result.value? {α : Type} : Result α → Option α
  | .ret v _ => some v
  | .assertFail _ _ => none

/-- Whether the call ended in a failed assertion. -/
def Result.failed {α : Type} : Result α → Bool
  | .ret _ _ => false
  | .assertFail _ _ => true

/-- Store to the atomic reference count. -/
def Machine.storeRefCount (m : Machine) (v : Int) : Machine :=
  { m with self := { m.self with local_ := { m.self.local_ with ref_count := v } } }

/-- Record one outgoing call at the end of the trace. -/
def Machine.emit (m : Machine) (e : Effect) : Machine :=
  { m with trace := m.trace ++ [e] }

/-- Member `setHeader` (lines 86 to 94). The arguments arrive as `int`,
`uint16_t` and `uint32_t`: the conversion to these types is made explicit. -/
def setHeader (initial_ref_count : Int) (meta_size data_size : Nat) (m : Machine) : Machine :=
  let m := m.storeRefCount (wrapInt initial_ref_count)
  let m := { m with self := { m.self with header := { m.self.header with data_bytes := data_size % 4294967296 } } }
  { m with self := { m.self with header := { m.self.header with meta_bytes := meta_size % 65536 } } }

/-- Member `IsPinned` (line 102). -/
def IsPinned (m : Machine) : Bool := m.self.local_.net_buffer_handle != nullptr

/-- Member `GetRefCount` (line 103). -/
def GetRefCount (m : Machine) : Int := m.self.local_.ref_count

/-- Member `IncrRef` (line 104): atomic pre-increment. -/
def IncrRef (m : Machine) : Machine := m.storeRefCount (wrapInt (m.self.local_.ref_count + 1))

/-- Member `DropRef` (line 105): atomic pre-decrement, nothing else. -/
def DropRef (m : Machine) : Machine := m.storeRefCount (wrapInt (m.self.local_.ref_count - 1))

/-- Body of the `for` loop of `DecrRef` (lines 116 to 121) for the element the
iterator points at. The element is copied into the local `segment`; the pair
returned is the final value of that local copy and the machine. -/
def visitSegment (it : AllocationSegment) (m : Machine) : AllocationSegment × Machine :=
  let segment := it
  if segment.cleanup_func ≠ nullptr then
    let m := m.emit (Effect.cleanup segment.cleanup_func segment.buffer_ptr)
    let segment := { segment with buffer_ptr := nullptr }
    (segment, m)
  else
    (segment, m)

/-- The `for` loop of `DecrRef` (lines 114 to 122) from the iterator position
given by the remaining elements up to `end()`. The local copy made by each
iteration goes out of scope at the end of the iteration. -/
def cleanupLoop : List AllocationSegment → Machine → Machine
  | [], m => m
  | it :: rest, m => cleanupLoop rest (visitSegment it m).2

/-- The text of the assertion of `DecrRef`. -/
def decrRefAssertMsg : String := "LunasaDataObject refcount decremented to below zero"

/-- The block of `DecrRef` run when `num_left == 0` (lines 112 to 124). -/
def releaseBlock (m : Machine) : Machine :=
  let m :=
    match m.self.local_.user_data_segments with
    | some segments => cleanupLoop segments m
    | none => m
  m.emit (Effect.free m.self.local_.allocator)

/-- Member `DecrRef` (lines 106 to 127), run by one thread alone. -/
def DecrRef (m : Machine) : Result Int :=
  if m.self.local_.ref_count > 0 then
    let m := m.storeRefCount (wrapInt (m.self.local_.ref_count - 1))
    let num_left := m.self.local_.ref_count
    if num_left = 0 then
      Result.ret num_left (releaseBlock m)
    else
      Result.ret num_left m
  else
    Result.assertFail decrRefAssertMsg m

/-- One reference-count call made by a client of the allocation. -/
inductive RefOp where
  | incr
  | drop
  | decr
  deriving DecidableEq

/-- The member function a `RefOp` stands for; the value `DecrRef` returns is
not used by the client. -/
def applyOp : RefOp → Machine → Result Unit
  | RefOp.incr, m => Result.ret () (IncrRef m)
  | RefOp.drop, m => Result.ret () (DropRef m)
  | RefOp.decr, m =>
    match DecrRef m with
    | Result.ret _ m1 => Result.ret () m1
    | Result.assertFail msg m1 => Result.assertFail msg m1

/-- A client making the calls of `ops` one after the other; a failed
assertion ends the program. -/
def runOps : List RefOp → Machine → Result Unit
  | [], m => Result.ret () m
  | o :: rest, m =>
    match applyOp o m with
    | Result.ret _ m1 => runOps rest m1
    | Result.assertFail msg m1 => Result.assertFail msg m1

/-- Whether an outgoing call is `Free`. -/
def Effect.isFree : Effect → Bool
  | Effect.free _ => true
  | Effect.cleanup _ _ => false

/-- Whether an outgoing call is the call of a cleanup function. -/
def Effect.isCleanup : Effect → Bool
  | Effect.free _ => false
  | Effect.cleanup _ _ => true

/-- Number of `Free` calls in a trace. -/
def numFree (tr : List Effect) : Nat := tr.countP Effect.isFree

/-- Number of cleanup-function calls in a trace. -/
def numCleanup (tr : List Effect) : Nat := tr.countP Effect.isCleanup

/-- The allocation has been released: `Free` has been called on it. -/
def Machine.released (m : Machine) : Bool := m.trace.any Effect.isFree

/-- Like `runOps`, the client stopping at the first release: once `Free` has
been called the allocation is gone and no further call is made on it. -/
def runUntilRelease : List RefOp → Machine → Result Unit
  | [], m => Result.ret () m
  | o :: rest, m =>
    if m.released then Result.ret () m
    else
      match applyOp o m with
      | Result.ret _ m1 => runUntilRelease rest m1
      | Result.assertFail msg m1 => Result.assertFail msg m1

/-- The calls a release issues for a segment list: one cleanup call for each
segment with a non-null `cleanup_func`, in list order, on its `buffer_ptr`. -/
def cleanupCalls (segments : List AllocationSegment) : List Effect :=
  (segments.filter (fun s => s.cleanup_func != nullptr)).map
    (fun s => Effect.cleanup s.cleanup_func s.buffer_ptr)

/-- The segments attached to an allocation (none when the pointer is null). -/
def attachedSegments (m : Machine) : List AllocationSegment :=
  match m.self.local_.user_data_segments with
  | some segments => segments
  | none => []

/-! ### Two concurrent calls of `DecrRef`

`DecrRef` touches the atomic count three times: the load of the assertion
(line 107), the decrement (line 109) and the load of `num_left` (line 110).
Each is one atomic step; the operations of `std::atomic_int` used here are
sequentially consistent, so two concurrent calls are an interleaving of
their steps. -/

/-- Program points of one call of `DecrRef`. -/
inductive DecrRefPC where
  /-- Before the load of the assertion, line 107. -/
  | atAssert
  /-- Before the atomic decrement, line 109. -/
  | atDecrement
  /-- Before the load into `num_left`, line 110. -/
  | atLoad
  /-- Before the test of `num_left`, line 111. -/
  | atTest
  /-- After `return num_left`. -/
  | returned
  /-- The assertion failed. -/
  | aborted
  deriving DecidableEq

/-- One call of `DecrRef` in progress: its program point and its local
variable `num_left`. -/
structure DecrRefCall where
  pc : DecrRefPC
  num_left : Int
  deriving DecidableEq

/-- A call that has not started yet. -/
def DecrRefCall.start : DecrRefCall := { pc := DecrRefPC.atAssert, num_left := 0 }

/-- One step of one call of `DecrRef` on the shared allocation. -/
def callStep (t : DecrRefCall) (m : Machine) : DecrRefCall × Machine :=
  match t.pc with
  | DecrRefPC.atAssert =>
    if m.self.local_.ref_count > 0 then ({ t with pc := DecrRefPC.atDecrement }, m)
    else ({ t with pc := DecrRefPC.aborted }, m)
  | DecrRefPC.atDecrement =>
    ({ t with pc := DecrRefPC.atLoad }, m.storeRefCount (wrapInt (m.self.local_.ref_count - 1)))
  | DecrRefPC.atLoad =>
    ({ pc := DecrRefPC.atTest, num_left := m.self.local_.ref_count }, m)
  | DecrRefPC.atTest =>
    if t.num_left = 0 then ({ t with pc := DecrRefPC.returned }, releaseBlock m)
    else ({ t with pc := DecrRefPC.returned }, m)
  | DecrRefPC.returned => (t, m)
  | DecrRefPC.aborted => (t, m)

/-- Two contexts calling `DecrRef` on the same allocation. -/
structure TwoCalls where
  first : DecrRefCall
  second : DecrRefCall
  shared : Machine
  deriving DecidableEq

/-- Both calls about to start on the allocation `m`. -/
def TwoCalls.init (m : Machine) : TwoCalls :=
  { first := DecrRefCall.start, second := DecrRefCall.start, shared := m }

/-- The scheduler lets one of the two calls make its next step (`false` the
first call, `true` the second); a failed assertion has stopped the program. -/
def TwoCalls.step (who : Bool) (s : TwoCalls) : TwoCalls :=
  if s.first.pc = DecrRefPC.aborted ∨ s.second.pc = DecrRefPC.aborted then s
  else if who then
    let r := callStep s.second s.shared
    { s with second := r.1, shared := r.2 }
  else
    let r := callStep s.first s.shared
    { s with first := r.1, shared := r.2 }

/-- Run of an interleaving given as the list of scheduler choices. -/
def runSchedule : List Bool → TwoCalls → TwoCalls
  | [], s => s
  | who :: rest, s => runSchedule rest (TwoCalls.step who s)

/-- Whether a call returned having seen `num_left == 0`. -/
def DecrRefCall.observedZero (t : DecrRefCall) : Bool :=
  t.pc = DecrRefPC.returned && t.num_left = 0

end lunasa

/-! ### OpInterjobPing -/

namespace OpInterjobPing

/-- Enum `OpInterjobPing::State` (OpInterjobPing.hh, lines 17 to 20). -/
inductive State where
  | start
  | snd_wait_for_reply
  | done
  deriving DecidableEq

/-- The static members `op_id` and `op_name` of the class. They are declared
at lines 31 and 32; their values are given in a file that is not part of the
sources at hand, so they are parameters here. -/
structure Statics where
  op_id : Nat
  op_name : String
  deriving DecidableEq

/-- The data members of an `OpInterjobPing` object (lines 42 to 50); the peer
pointer, the promise and the message object are kept as opaque handles. -/
structure Instance where
  state : State
  peer : Nat
  ping_promise : Nat
  ldo_msg : Nat
  deriving DecidableEq

/-- Member `getOpID` (line 33). -/
def getOpID (cls : Statics) (_self : Instance) : Nat := cls.op_id

/-- Member `getOpName` (line 34). -/
def getOpName (cls : Statics) (_self : Instance) : String := cls.op_name

end OpInterjobPing

/-! ### Concrete allocations used to exercise the theorems -/

namespace lunasa

/-- Three attached segments; the middle one has no cleanup function. -/
def sampleSegments : List AllocationSegment :=
  [ { buffer_ptr := 100, net_buffer_handle := 7, net_buffer_offset := 0, size := 64, cleanup_func := 500 },
    { buffer_ptr := 200, net_buffer_handle := 0, net_buffer_offset := 0, size := 32, cleanup_func := 0 },
    { buffer_ptr := 300, net_buffer_handle := 8, net_buffer_offset := 16, size := 16, cleanup_func := 501 } ]

/-- A pinned allocation with reference count `c`, the segments `segs` and no
call issued yet. -/
def sampleMachine (c : Int) (segs : Option (List AllocationSegment)) : Machine :=
  { self :=
      { local_ :=
          { net_buffer_handle := 7, ref_count := c, allocator := 900, net_buffer_offset := 0,
            allocated_bytes := 128, user_data_segments := segs },
        header := { meta_bytes := 8, data_bytes := 120 } },
    trace := [] }

/-- An allocation with reference count 1 whose only segment has a null
`cleanup_func`. -/
def nullCleanupMachine : Machine :=
  sampleMachine 1
    (some [ { buffer_ptr := 200, net_buffer_handle := 0, net_buffer_offset := 0, size := 32,
              cleanup_func := 0 } ])

/-- The interleaving in which the two calls alternate step by step: both
assertion loads, both decrements, both loads of `num_left`, both tests. -/
def alternatingSchedule : List Bool :=
  [false, true, false, true, false, true, false, true]

/-- The interleaving in which the first call runs to its end before the
second call starts. -/
def sequentialSchedule : List Bool :=
  [false, false, false, false, true, true, true, true]

/-- The calls issued between two states of the same allocation. -/
def callsSince (before after : Machine) : List Effect :=
  after.trace.drop before.trace.length

end lunasa

/-! ## Theorems -/

namespace lunasa

theorem wrapInt_of_inRange (x : Int) (hlo : INT_MIN ≤ x) (hhi : x ≤ INT_MAX) : wrapInt x = x := by
  unfold INT_MIN at hlo
  unfold INT_MAX at hhi
  unfold wrapInt
  omega

theorem wrapInt_inRange (x : Int) : INT_MIN ≤ wrapInt x ∧ wrapInt x ≤ INT_MAX := by
  unfold INT_MIN INT_MAX wrapInt
  omega

theorem visitSegment_self (it : AllocationSegment) (m : Machine) :
    (visitSegment it m).2.self = m.self := by
  unfold visitSegment
  by_cases h : it.cleanup_func = nullptr <;> simp [h, Machine.emit]

theorem visitSegment_trace (it : AllocationSegment) (m : Machine) :
    (visitSegment it m).2.trace = m.trace ++ cleanupCalls [it] := by
  unfold visitSegment cleanupCalls
  by_cases h : it.cleanup_func = nullptr <;> simp [h, Machine.emit]

theorem cleanupCalls_cons (it : AllocationSegment) (rest : List AllocationSegment) :
    cleanupCalls (it :: rest) = cleanupCalls [it] ++ cleanupCalls rest := by
  unfold cleanupCalls
  by_cases h : it.cleanup_func = nullptr <;> simp [h]

theorem cleanupLoop_self (segments : List AllocationSegment) (m : Machine) :
    (cleanupLoop segments m).self = m.self := by
  induction segments generalizing m with
  | nil => rfl
  | cons it rest ih => simp [cleanupLoop, ih, visitSegment_self]

theorem cleanupLoop_trace (segments : List AllocationSegment) (m : Machine) :
    (cleanupLoop segments m).trace = m.trace ++ cleanupCalls segments := by
  induction segments generalizing m with
  | nil => simp [cleanupLoop, cleanupCalls]
  | cons it rest ih =>
    rw [cleanupLoop, ih, visitSegment_trace, cleanupCalls_cons it rest, List.append_assoc]

theorem releaseBlock_self (m : Machine) : (releaseBlock m).self = m.self := by
  unfold releaseBlock
  cases h : m.self.local_.user_data_segments <;> simp [Machine.emit, cleanupLoop_self]

theorem releaseBlock_trace (m : Machine) :
    (releaseBlock m).trace
      = m.trace ++ cleanupCalls (attachedSegments m) ++ [Effect.free m.self.local_.allocator] := by
  unfold releaseBlock attachedSegments
  cases h : m.self.local_.user_data_segments <;>
    simp [Machine.emit, cleanupLoop_self, cleanupLoop_trace, cleanupCalls]

theorem numFree_cleanupCalls (segments : List AllocationSegment) :
    numFree (cleanupCalls segments) = 0 := by
  unfold numFree cleanupCalls
  simp [List.countP_eq_zero, Effect.isFree]

theorem filter_isCleanup_cleanupCalls (segments : List AllocationSegment) :
    (cleanupCalls segments).filter Effect.isCleanup = cleanupCalls segments := by
  unfold cleanupCalls
  rw [List.filter_eq_self]
  intro a ha
  rcases List.mem_map.mp ha with ⟨s, _, rfl⟩
  rfl

theorem storeRefCount_refCount (m : Machine) (v : Int) :
    (m.storeRefCount v).self.local_.ref_count = v := rfl

theorem storeRefCount_trace (m : Machine) (v : Int) : (m.storeRefCount v).trace = m.trace := rfl

theorem storeRefCount_same (m : Machine) : m.storeRefCount m.self.local_.ref_count = m := rfl

theorem storeRefCount_twice (m : Machine) (v w : Int) :
    (m.storeRefCount v).storeRefCount w = m.storeRefCount w := rfl

theorem attachedSegments_storeRefCount (m : Machine) (v : Int) :
    attachedSegments (m.storeRefCount v) = attachedSegments m := rfl

theorem DecrRef_nonpos (m : Machine) (h : m.self.local_.ref_count ≤ 0) :
    DecrRef m = Result.assertFail decrRefAssertMsg m := by
  unfold DecrRef
  rw [if_neg (by omega)]

theorem DecrRef_to_zero (m : Machine) (hpos : 0 < m.self.local_.ref_count)
    (hz : wrapInt (m.self.local_.ref_count - 1) = 0) :
    DecrRef m = Result.ret 0 (releaseBlock (m.storeRefCount 0)) := by
  unfold DecrRef
  rw [if_pos hpos]
  simp only [storeRefCount_refCount, hz, if_true]

theorem DecrRef_to_nonzero (m : Machine) (hpos : 0 < m.self.local_.ref_count)
    (hz : wrapInt (m.self.local_.ref_count - 1) ≠ 0) :
    DecrRef m = Result.ret (wrapInt (m.self.local_.ref_count - 1))
      (m.storeRefCount (wrapInt (m.self.local_.ref_count - 1))) := by
  unfold DecrRef
  rw [if_pos hpos]
  simp only [storeRefCount_refCount, hz, if_false]

theorem DecrRef_value_zero (m : Machine) (h : (DecrRef m).value? = some 0) :
    DecrRef m = Result.ret 0 (releaseBlock (m.storeRefCount 0)) := by
  by_cases hpos : 0 < m.self.local_.ref_count
  · by_cases hz : wrapInt (m.self.local_.ref_count - 1) = 0
    · exact DecrRef_to_zero m hpos hz
    · rw [DecrRef_to_nonzero m hpos hz] at h
      simp only [Result.value?, Option.some.injEq] at h
      exact absurd h hz
  · rw [DecrRef_nonpos m (by omega)] at h
    simp [Result.value?] at h

theorem wrapInt_pred_of_pos (c : Int) (hpos : 0 < c) (hmax : c ≤ INT_MAX) :
    wrapInt (c - 1) = c - 1 := by
  apply wrapInt_of_inRange
  · unfold INT_MIN; omega
  · omega

/-- Claim C3. `DecrRef` on a reference count of zero or less fails the
assertion "LunasaDataObject refcount decremented to below zero" and stops in
the unchanged state: same count, no cleanup call, no `Free`. On a count
greater than zero the assertion does not fail. -/
theorem DecrRef_assertion (m : Machine) :
    (GetRefCount m ≤ 0 →
      DecrRef m = Result.assertFail "LunasaDataObject refcount decremented to below zero" m ∧
      (DecrRef m).failed = true ∧
      GetRefCount (DecrRef m).machine = GetRefCount m ∧
      (DecrRef m).machine.trace = m.trace) ∧
    (0 < GetRefCount m → (DecrRef m).failed = false) := by
  constructor
  · intro h
    have h1 := DecrRef_nonpos m h
    rw [h1]
    exact ⟨rfl, rfl, rfl, rfl⟩
  · intro h
    unfold GetRefCount at h
    by_cases hz : wrapInt (m.self.local_.ref_count - 1) = 0
    · rw [DecrRef_to_zero m h hz]; rfl
    · rw [DecrRef_to_nonzero m h hz]; rfl

/-- Instances of claim C3 at a count of zero and at a count of one. -/
theorem DecrRef_assertion_witness :
    (DecrRef (sampleMachine 0 (some sampleSegments))
        = Result.assertFail "LunasaDataObject refcount decremented to below zero"
            (sampleMachine 0 (some sampleSegments))) ∧
    (DecrRef (sampleMachine 1 (some sampleSegments))).failed = false :=
  ⟨((DecrRef_assertion (sampleMachine 0 (some sampleSegments))).1 (by decide)).1,
   (DecrRef_assertion (sampleMachine 1 (some sampleSegments))).2 (by decide)⟩

/-- Claim C7. On a reference count `c > 0` (a value of type `int`), `DecrRef`
returns `c - 1`, leaves `GetRefCount` at `c - 1`, issues the release calls
(the cleanup calls, then `Free`) exactly when the returned value is zero and
issues no call otherwise; for `c > 1` the resulting state is the starting
state with the count decremented. -/
theorem DecrRef_positive (m : Machine) (c : Int) (hc : GetRefCount m = c) (hpos : 0 < c)
    (hmax : c ≤ INT_MAX) :
    (DecrRef m).value? = some (c - 1) ∧
    GetRefCount (DecrRef m).machine = c - 1 ∧
    (DecrRef m).machine.self = (m.storeRefCount (c - 1)).self ∧
    ((DecrRef m).machine.trace
        = m.trace ++ cleanupCalls (attachedSegments m) ++ [Effect.free m.self.local_.allocator]
      ↔ c - 1 = 0) ∧
    ((DecrRef m).machine.trace = m.trace ↔ c - 1 ≠ 0) ∧
    (1 < c → (DecrRef m).machine = m.storeRefCount (c - 1)) := by
  unfold GetRefCount at hc
  have hw : wrapInt (m.self.local_.ref_count - 1) = c - 1 := by
    rw [hc]; exact wrapInt_pred_of_pos c hpos hmax
  by_cases hz : c - 1 = 0
  · have hd := DecrRef_to_zero m (by omega) (by rw [hw]; exact hz)
    rw [hd, hz]
    have htr : (releaseBlock (m.storeRefCount 0)).trace
        = m.trace ++ cleanupCalls (attachedSegments m) ++ [Effect.free m.self.local_.allocator] :=
      releaseBlock_trace (m.storeRefCount 0)
    refine ⟨rfl, ?_, ?_, ⟨fun _ => rfl, fun _ => htr⟩, ⟨?_, fun h => absurd rfl h⟩, ?_⟩
    · show (releaseBlock (m.storeRefCount 0)).self.local_.ref_count = 0
      rw [releaseBlock_self]; rfl
    · exact releaseBlock_self (m.storeRefCount 0)
    · intro h
      have h2 : (releaseBlock (m.storeRefCount 0)).trace = m.trace := h
      rw [htr] at h2
      have hl := congrArg List.length h2
      simp at hl
    · intro h; omega
  · have hd := DecrRef_to_nonzero m (by omega) (by rw [hw]; exact hz)
    rw [hd, hw]
    refine ⟨rfl, rfl, rfl, ⟨?_, fun h => absurd h hz⟩, ⟨fun _ => hz, fun _ => rfl⟩, fun _ => rfl⟩
    intro h
    have h2 : m.trace
        = m.trace ++ cleanupCalls (attachedSegments m) ++ [Effect.free m.self.local_.allocator] := h
    have hl := congrArg List.length h2
    simp at hl

/-- Instance of claim C7 at a count of three. -/
theorem DecrRef_positive_witness :
    (DecrRef (sampleMachine 3 (some sampleSegments))).value? = some (3 - 1) ∧
    (DecrRef (sampleMachine 3 (some sampleSegments))).machine
      = (sampleMachine 3 (some sampleSegments)).storeRefCount (3 - 1) :=
  have h := DecrRef_positive (sampleMachine 3 (some sampleSegments)) 3 rfl (by decide) (by decide)
  ⟨h.1, h.2.2.2.2.2 (by decide)⟩

/-- Claim C6. `DecrRef` on a reference count of 1 brings the count to zero
and returns zero, and the calls it issues are: for each segment of
`user_data_segments` in order, skipping the segments whose `cleanup_func` is
null, the call of that cleanup function on the `buffer_ptr` of the segment;
then, after the last segment, the call of `Free` on the allocator. When
`user_data_segments` is null, `Free` is the only call. -/
theorem DecrRef_release_order (m : Machine) (h : GetRefCount m = 1) :
    (DecrRef m).value? = some 0 ∧
    GetRefCount (DecrRef m).machine = 0 ∧
    (DecrRef m).machine.trace
      = m.trace
        ++ ((attachedSegments m).filter (fun s => s.cleanup_func != nullptr)).map
            (fun s => Effect.cleanup s.cleanup_func s.buffer_ptr)
        ++ [Effect.free m.self.local_.allocator] ∧
    (m.self.local_.user_data_segments = none →
      (DecrRef m).machine.trace = m.trace ++ [Effect.free m.self.local_.allocator]) := by
  unfold GetRefCount at h
  rw [DecrRef_to_zero m (by omega) (by rw [h]; rfl)]
  have htr : (releaseBlock (m.storeRefCount 0)).trace
      = m.trace ++ cleanupCalls (attachedSegments m) ++ [Effect.free m.self.local_.allocator] :=
    releaseBlock_trace (m.storeRefCount 0)
  refine ⟨rfl, ?_, htr, ?_⟩
  · show (releaseBlock (m.storeRefCount 0)).self.local_.ref_count = 0
    rw [releaseBlock_self]
    rfl
  · intro hnone
    show (releaseBlock (m.storeRefCount 0)).trace = _
    rw [htr]
    simp [attachedSegments, hnone, cleanupCalls]

/-- Instance of claim C6: a count of 1 and three segments, the middle one
without a cleanup function. -/
theorem DecrRef_release_order_witness :
    (DecrRef (sampleMachine 1 (some sampleSegments))).value? = some 0 ∧
    GetRefCount (DecrRef (sampleMachine 1 (some sampleSegments))).machine = 0 ∧
    (DecrRef (sampleMachine 1 (some sampleSegments))).machine.trace
      = [Effect.cleanup 500 100, Effect.cleanup 501 300, Effect.free 900] :=
  have h := DecrRef_release_order (sampleMachine 1 (some sampleSegments)) rfl
  ⟨h.1, h.2.1, h.2.2.1⟩

/-- Claim C8. The `DecrRef` that reaches zero leaves the stored segment list
as it was (same entries with all their fields, same length, same order): the
null written to `buffer_ptr` after a cleanup call lands in the local copy of
the segment, and the iteration leaves the allocation itself untouched. -/
theorem DecrRef_keeps_segments (m : Machine) (h : (DecrRef m).value? = some 0) :
    (DecrRef m).machine.self.local_.user_data_segments = m.self.local_.user_data_segments ∧
    (∀ it ∈ attachedSegments m, ∀ m1 : Machine, it.cleanup_func ≠ nullptr →
      (visitSegment it m1).1.buffer_ptr = nullptr ∧ (visitSegment it m1).2.self = m1.self) := by
  rw [DecrRef_value_zero m h]
  constructor
  · show (releaseBlock (m.storeRefCount 0)).self.local_.user_data_segments = _
    rw [releaseBlock_self]
    rfl
  · intro it _ m1 hne
    refine ⟨?_, visitSegment_self it m1⟩
    unfold visitSegment
    simp [hne]

/-- Instance of claim C8 on the three sample segments. -/
theorem DecrRef_keeps_segments_witness :
    (DecrRef (sampleMachine 1 (some sampleSegments))).machine.self.local_.user_data_segments
      = some sampleSegments :=
  (DecrRef_keeps_segments (sampleMachine 1 (some sampleSegments)) (by decide)).1

/-- Claim C9. For an `int` count, a 16-bit `meta_size` and a 32-bit
`data_size`, `setHeader` leaves `GetRefCount` at the given count, the header
at the given sizes, all other local fields (and so `IsPinned`) unchanged, and
issues no call, whatever the count was before. -/
theorem setHeader_spec (m : Machine) (initial_ref_count : Int) (meta_size data_size : Nat)
    (hlo : INT_MIN ≤ initial_ref_count) (hhi : initial_ref_count ≤ INT_MAX)
    (hmeta : meta_size < 2 ^ 16) (hdata : data_size < 2 ^ 32) :
    GetRefCount (setHeader initial_ref_count meta_size data_size m) = initial_ref_count ∧
    (setHeader initial_ref_count meta_size data_size m).self.header.meta_bytes = meta_size ∧
    (setHeader initial_ref_count meta_size data_size m).self.header.data_bytes = data_size ∧
    (setHeader initial_ref_count meta_size data_size m).self.local_.net_buffer_handle
      = m.self.local_.net_buffer_handle ∧
    IsPinned (setHeader initial_ref_count meta_size data_size m) = IsPinned m ∧
    (setHeader initial_ref_count meta_size data_size m).self.local_.allocator
      = m.self.local_.allocator ∧
    (setHeader initial_ref_count meta_size data_size m).self.local_.net_buffer_offset
      = m.self.local_.net_buffer_offset ∧
    (setHeader initial_ref_count meta_size data_size m).self.local_.allocated_bytes
      = m.self.local_.allocated_bytes ∧
    (setHeader initial_ref_count meta_size data_size m).self.local_.user_data_segments
      = m.self.local_.user_data_segments ∧
    (setHeader initial_ref_count meta_size data_size m).trace = m.trace := by
  refine ⟨?_, ?_, ?_, rfl, rfl, rfl, rfl, rfl, rfl, rfl⟩
  · show wrapInt initial_ref_count = initial_ref_count
    exact wrapInt_of_inRange _ hlo hhi
  · show meta_size % 65536 = meta_size
    exact Nat.mod_eq_of_lt (by omega)
  · show data_size % 4294967296 = data_size
    exact Nat.mod_eq_of_lt (by omega)

/-- Instance of claim C9: a header set over an allocation whose count was 0. -/
theorem setHeader_spec_witness :
    GetRefCount (setHeader 5 12 4096 (sampleMachine 0 none)) = 5 ∧
    (setHeader 5 12 4096 (sampleMachine 0 none)).self.header.meta_bytes = 12 ∧
    (setHeader 5 12 4096 (sampleMachine 0 none)).self.header.data_bytes = 4096 ∧
    (setHeader 5 12 4096 (sampleMachine 0 none)).trace = [] :=
  have h := setHeader_spec (sampleMachine 0 none) 5 12 4096 (by decide) (by decide)
    (by decide) (by decide)
  ⟨h.1, h.2.1, h.2.2.1, h.2.2.2.2.2.2.2.2.2⟩

/-- Claim C2, as stated, fails: an allocation with count 1 and one attached
segment whose `cleanup_func` is null is released by `DecrRef` with one call
of `Free` and no cleanup call at all, so not one cleanup call per segment. -/
theorem DecrRef_null_cleanup_not_invoked :
    GetRefCount nullCleanupMachine = 1 ∧
    (attachedSegments nullCleanupMachine).length = 1 ∧
    numFree (callsSince nullCleanupMachine (DecrRef nullCleanupMachine).machine) = 1 ∧
    numCleanup (callsSince nullCleanupMachine (DecrRef nullCleanupMachine).machine) = 0 ∧
    ¬ (numCleanup (callsSince nullCleanupMachine (DecrRef nullCleanupMachine).machine)
        = (attachedSegments nullCleanupMachine).length) := by
  decide

/-- Claim C2, amended. On a reference count of exactly 1, `DecrRef` returns
zero and issues exactly one call of `Free`, on the allocator of the
allocation, and exactly one cleanup call per attached segment whose
`cleanup_func` is not null (that function on the `buffer_ptr` of that
segment); a segment whose `cleanup_func` is null gets no call. -/
theorem DecrRef_last_reference (m : Machine) (h : GetRefCount m = 1) :
    (DecrRef m).value? = some 0 ∧
    (DecrRef m).machine.trace = m.trace ++ callsSince m (DecrRef m).machine ∧
    numFree (callsSince m (DecrRef m).machine) = 1 ∧
    Effect.free m.self.local_.allocator ∈ callsSince m (DecrRef m).machine ∧
    numCleanup (callsSince m (DecrRef m).machine)
      = ((attachedSegments m).filter (fun s => s.cleanup_func != nullptr)).length ∧
    (callsSince m (DecrRef m).machine).filter Effect.isCleanup
      = ((attachedSegments m).filter (fun s => s.cleanup_func != nullptr)).map
          (fun s => Effect.cleanup s.cleanup_func s.buffer_ptr) := by
  unfold GetRefCount at h
  have hd := DecrRef_to_zero m (by omega) (by rw [h]; rfl)
  have htr : (releaseBlock (m.storeRefCount 0)).trace
      = m.trace ++ cleanupCalls (attachedSegments m) ++ [Effect.free m.self.local_.allocator] :=
    releaseBlock_trace (m.storeRefCount 0)
  have hcs : callsSince m (DecrRef m).machine
      = cleanupCalls (attachedSegments m) ++ [Effect.free m.self.local_.allocator] := by
    rw [hd]
    show List.drop m.trace.length (releaseBlock (m.storeRefCount 0)).trace = _
    rw [htr, List.append_assoc, List.drop_left]
  rw [hcs]
  refine ⟨by rw [hd]; rfl, ?_, ?_, by simp, ?_, ?_⟩
  · rw [hd]
    show (releaseBlock (m.storeRefCount 0)).trace = _
    rw [htr, List.append_assoc]
  · unfold numFree
    rw [List.countP_append]
    have h0 := numFree_cleanupCalls (attachedSegments m)
    unfold numFree at h0
    rw [h0]
    rfl
  · unfold numCleanup
    rw [List.countP_eq_length_filter, List.filter_append, filter_isCleanup_cleanupCalls]
    simp [cleanupCalls, Effect.isCleanup]
  · rw [List.filter_append, filter_isCleanup_cleanupCalls]
    simp [cleanupCalls, Effect.isCleanup]

/-- Instance of the amended claim C2: three segments, two of them with a
cleanup function, give two cleanup calls and one call of `Free`. -/
theorem DecrRef_last_reference_witness :
    numFree (callsSince (sampleMachine 1 (some sampleSegments))
        (DecrRef (sampleMachine 1 (some sampleSegments))).machine) = 1 ∧
    numCleanup (callsSince (sampleMachine 1 (some sampleSegments))
        (DecrRef (sampleMachine 1 (some sampleSegments))).machine) = 2 :=
  have h := DecrRef_last_reference (sampleMachine 1 (some sampleSegments)) rfl
  ⟨h.2.2.1, h.2.2.2.2.1⟩

theorem take_succ_cons_count (o p : RefOp) (rest : List RefOp) (k : Nat) :
    ((o :: rest).take (k + 1)).count p = (rest.take k).count p + (if o = p then 1 else 0) := by
  rw [List.take_succ_cons, List.count_cons]
  by_cases h : o = p <;> simp [h]

/-- A sequence of `IncrRef` and `DecrRef` calls during which the count stays
at least 1 and at most `INT_MAX` runs to its end without any call being
issued and changes the count by the number of increments minus the number of
decrements. -/
theorem runOps_no_release (ops : List RefOp) :
    ∀ m : Machine,
      (∀ o ∈ ops, o = RefOp.incr ∨ o = RefOp.decr) →
      (∀ k, 1 ≤ m.self.local_.ref_count + ((ops.take k).count RefOp.incr : Int)
              - ((ops.take k).count RefOp.decr : Int)) →
      (∀ k, m.self.local_.ref_count + ((ops.take k).count RefOp.incr : Int)
              - ((ops.take k).count RefOp.decr : Int) ≤ INT_MAX) →
      runOps ops m = Result.ret ()
        (m.storeRefCount (m.self.local_.ref_count + (ops.count RefOp.incr : Int)
          - (ops.count RefOp.decr : Int))) := by
  induction ops with
  | nil =>
    intro m _ _ _
    simp [runOps, storeRefCount_same]
  | cons o rest ih =>
    intro m hops hlo hhi
    have hlo0 := hlo 0
    have hhi0 := hhi 0
    have hlo1 := hlo 1
    have hhi1 := hhi 1
    simp only [List.take_zero, List.count_nil, Nat.cast_zero] at hlo0 hhi0
    have hrest : ∀ p ∈ rest, p = RefOp.incr ∨ p = RefOp.decr :=
      fun p hp => hops p (List.mem_cons_of_mem _ hp)
    rcases hops o (List.mem_cons_self _ _) with ho | ho
    · subst ho
      simp only [List.take_succ_cons, List.take_zero, List.count_cons, List.count_nil] at hlo1 hhi1
      simp at hlo1 hhi1
      have hw : wrapInt (m.self.local_.ref_count + 1) = m.self.local_.ref_count + 1 :=
        wrapInt_of_inRange _ (by unfold INT_MIN; omega) (by omega)
      have hstep : applyOp RefOp.incr m
          = Result.ret () (m.storeRefCount (m.self.local_.ref_count + 1)) := by
        simp only [applyOp, IncrRef, hw]
      rw [runOps, hstep]
      simp only
      rw [ih (m.storeRefCount (m.self.local_.ref_count + 1)) hrest]
      · simp only [storeRefCount_refCount, storeRefCount_twice, List.count_cons]
        congr 2
        simp
        omega
      · intro k
        have := hlo (k + 1)
        rw [take_succ_cons_count, take_succ_cons_count] at this
        simp at this
        simp only [storeRefCount_refCount]
        omega
      · intro k
        have := hhi (k + 1)
        rw [take_succ_cons_count, take_succ_cons_count] at this
        simp at this
        simp only [storeRefCount_refCount]
        omega
    · subst ho
      simp only [List.take_succ_cons, List.take_zero, List.count_cons, List.count_nil] at hlo1 hhi1
      simp at hlo1 hhi1
      have hw : wrapInt (m.self.local_.ref_count - 1) = m.self.local_.ref_count - 1 :=
        wrapInt_of_inRange _ (by unfold INT_MIN; omega) (by omega)
      have hstep : applyOp RefOp.decr m
          = Result.ret () (m.storeRefCount (m.self.local_.ref_count - 1)) := by
        have hd := DecrRef_to_nonzero m (by omega) (by rw [hw]; omega)
        rw [hw] at hd
        simp only [applyOp, hd]
      rw [runOps, hstep]
      simp only
      rw [ih (m.storeRefCount (m.self.local_.ref_count - 1)) hrest]
      · simp only [storeRefCount_refCount, storeRefCount_twice, List.count_cons]
        congr 2
        simp
        omega
      · intro k
        have := hlo (k + 1)
        rw [take_succ_cons_count, take_succ_cons_count] at this
        simp at this
        simp only [storeRefCount_refCount]
        omega
      · intro k
        have := hhi (k + 1)
        rw [take_succ_cons_count, take_succ_cons_count] at this
        simp at this
        simp only [storeRefCount_refCount]
        omega

/-- Claim C1. On an allocation with count `c ≥ 1`, a sequence of `N` calls of
`IncrRef` and `N` calls of `DecrRef` in which every initial part has at
least as many `IncrRef` as `DecrRef`, the count staying within `int` range,
runs to its end, leaves `GetRefCount` at `c` (and the whole allocation as it
was), and at no point of the sequence is a call issued: no `Free`, no
cleanup function, no failed assertion. -/
theorem IncrRef_DecrRef_matched (m : Machine) (c : Int) (N : Nat) (ops : List RefOp)
    (hc : GetRefCount m = c) (hpos : 1 ≤ c)
    (hops : ∀ o ∈ ops, o = RefOp.incr ∨ o = RefOp.decr)
    (hincr : ops.count RefOp.incr = N) (hdecr : ops.count RefOp.decr = N)
    (hmatched : ∀ k, (ops.take k).count RefOp.decr ≤ (ops.take k).count RefOp.incr)
    (hrange : ∀ k, c + ((ops.take k).count RefOp.incr : Int)
                - ((ops.take k).count RefOp.decr : Int) ≤ INT_MAX) :
    (runOps ops m).failed = false ∧
    GetRefCount (runOps ops m).machine = c ∧
    (runOps ops m).machine = m ∧
    (∀ k, (runOps (ops.take k) m).failed = false ∧
          (runOps (ops.take k) m).machine.trace = m.trace ∧
          numFree (callsSince m (runOps (ops.take k) m).machine) = 0 ∧
          numCleanup (callsSince m (runOps (ops.take k) m).machine) = 0) := by
  unfold GetRefCount at hc
  subst hc
  have hlo : ∀ k, 1 ≤ m.self.local_.ref_count + ((ops.take k).count RefOp.incr : Int)
      - ((ops.take k).count RefOp.decr : Int) := by
    intro k
    have := hmatched k
    omega
  have hall := runOps_no_release ops m hops hlo hrange
  have hnet : m.self.local_.ref_count + (ops.count RefOp.incr : Int)
      - (ops.count RefOp.decr : Int) = m.self.local_.ref_count := by
    rw [hincr, hdecr]; omega
  rw [hnet, storeRefCount_same] at hall
  refine ⟨by rw [hall]; rfl, by rw [hall]; rfl, by rw [hall]; rfl, ?_⟩
  intro k
  have hk := runOps_no_release (ops.take k) m
    (fun o ho => hops o (List.mem_of_mem_take ho))
    (fun j => by rw [List.take_take]; exact hlo (min j k))
    (fun j => by rw [List.take_take]; exact hrange (min j k))
  rw [hk]
  refine ⟨rfl, rfl, ?_, ?_⟩
  · show numFree (List.drop m.trace.length m.trace) = 0
    rw [List.drop_length]; rfl
  · show numCleanup (List.drop m.trace.length m.trace) = 0
    rw [List.drop_length]; rfl

/-- Instance of claim C1: two nested pairs of calls on a count of 1. -/
theorem IncrRef_DecrRef_matched_witness :
    GetRefCount
      (runOps [RefOp.incr, RefOp.incr, RefOp.decr, RefOp.decr]
        (sampleMachine 1 (some sampleSegments))).machine = 1 ∧
    (runOps [RefOp.incr, RefOp.incr, RefOp.decr, RefOp.decr]
        (sampleMachine 1 (some sampleSegments))).machine.trace = [] :=
  have h := IncrRef_DecrRef_matched (sampleMachine 1 (some sampleSegments)) 1 2
    [RefOp.incr, RefOp.incr, RefOp.decr, RefOp.decr] rfl (by decide) (by decide) (by decide)
    (by decide)
    (by intro k; rcases k with _ | _ | _ | _ | _ | k <;> simp)
    (by intro k; rcases k with _ | _ | _ | _ | _ | k <;> simp [INT_MAX])
  ⟨h.2.1, (h.2.2.2 4).2.1⟩

theorem released_storeRefCount (m : Machine) (v : Int) :
    (m.storeRefCount v).released = m.released := rfl

theorem released_releaseBlock (m : Machine) : (releaseBlock m).released = true := by
  unfold Machine.released
  rw [releaseBlock_trace]
  simp [Effect.isFree]

theorem refCount_releaseBlock (m : Machine) :
    (releaseBlock m).self.local_.ref_count = m.self.local_.ref_count := by
  rw [releaseBlock_self]

theorem runUntilRelease_of_released (ops : List RefOp) (m : Machine) (h : m.released = true) :
    runUntilRelease ops m = Result.ret () m := by
  cases ops with
  | nil => rfl
  | cons o rest => simp [runUntilRelease, h]

/-- One client call on a live allocation: either the assertion fails in the
unchanged state, or the call returns without a release, changing the count
only, or the call is a `DecrRef` that returns with the count at zero and the
allocation released. -/
theorem applyOp_cases (o : RefOp) (m : Machine) :
    applyOp o m = Result.assertFail decrRefAssertMsg m ∨
    (∃ v, applyOp o m = Result.ret () (m.storeRefCount v)) ∨
    (o = RefOp.decr ∧ applyOp o m = Result.ret () (releaseBlock (m.storeRefCount 0))) := by
  cases o with
  | incr => exact Or.inr (Or.inl ⟨_, rfl⟩)
  | drop => exact Or.inr (Or.inl ⟨_, rfl⟩)
  | decr =>
    by_cases hpos : 0 < m.self.local_.ref_count
    · by_cases hz : wrapInt (m.self.local_.ref_count - 1) = 0
      · right; right
        refine ⟨rfl, ?_⟩
        simp only [applyOp, DecrRef_to_zero m hpos hz]
      · right; left
        refine ⟨wrapInt (m.self.local_.ref_count - 1), ?_⟩
        simp only [applyOp, DecrRef_to_nonzero m hpos hz]
    · left
      simp only [applyOp, DecrRef_nonpos m (by omega)]

/-- Any sequence of `IncrRef`, `DropRef` and `DecrRef` calls on a live
allocation, stopped at the first release: if the allocation ends up released,
its count is zero. -/
theorem runUntilRelease_released_count (ops : List RefOp) :
    ∀ m : Machine, m.released = false →
      (runUntilRelease ops m).machine.released = true →
      GetRefCount (runUntilRelease ops m).machine = 0 := by
  induction ops with
  | nil =>
    intro m hlive h
    rw [runUntilRelease, Result.machine, hlive] at h
    exact absurd h (by decide)
  | cons o rest ih =>
    intro m hlive
    rw [runUntilRelease]
    simp only [hlive, Bool.false_eq_true, if_false]
    rcases applyOp_cases o m with h | ⟨v, h⟩ | ⟨_, h⟩
    · rw [h]
      intro hr
      rw [Result.machine, hlive] at hr
      exact absurd hr (by decide)
    · rw [h]
      exact ih (m.storeRefCount v) hlive
    · rw [h]
      simp only
      rw [runUntilRelease_of_released rest _ (released_releaseBlock _)]
      intro _
      show (releaseBlock (m.storeRefCount 0)).self.local_.ref_count = 0
      rw [refCount_releaseBlock]
      rfl

/-- A sequence of `IncrRef` and `DecrRef` calls on a live allocation with a
count of at least 1, the count staying within `int` range, stopped at the
first release: no assertion fails, and at the end either the allocation is
live with a count of at least 1 or it is released with a count of zero. -/
theorem runUntilRelease_live_or_zero (ops : List RefOp) :
    ∀ m : Machine, m.released = false → 1 ≤ m.self.local_.ref_count →
      RefOp.drop ∉ ops →
      (∀ k, m.self.local_.ref_count + ((ops.take k).count RefOp.incr : Int)
              - ((ops.take k).count RefOp.decr : Int) ≤ INT_MAX) →
      (runUntilRelease ops m).failed = false ∧
      (((runUntilRelease ops m).machine.released = false ∧
          1 ≤ GetRefCount (runUntilRelease ops m).machine) ∨
       ((runUntilRelease ops m).machine.released = true ∧
          GetRefCount (runUntilRelease ops m).machine = 0)) := by
  induction ops with
  | nil =>
    intro m hlive hpos _ _
    exact ⟨rfl, Or.inl ⟨hlive, hpos⟩⟩
  | cons o rest ih =>
    intro m hlive hpos hnd hhi
    have hhi0 := hhi 0
    have hhi1 := hhi 1
    simp only [List.take_zero, List.count_nil, Nat.cast_zero] at hhi0
    have hrest : RefOp.drop ∉ rest := fun hp => hnd (List.mem_cons_of_mem _ hp)
    rw [runUntilRelease]
    simp only [hlive, Bool.false_eq_true, if_false]
    cases o with
    | drop => exact absurd (List.mem_cons_self _ _) hnd
    | incr =>
      simp only [List.take_succ_cons, List.take_zero, List.count_cons, List.count_nil] at hhi1
      simp at hhi1
      have hw : wrapInt (m.self.local_.ref_count + 1) = m.self.local_.ref_count + 1 :=
        wrapInt_of_inRange _ (by unfold INT_MIN; omega) (by omega)
      have hstep : applyOp RefOp.incr m
          = Result.ret () (m.storeRefCount (m.self.local_.ref_count + 1)) := by
        simp only [applyOp, IncrRef, hw]
      rw [hstep]
      apply ih (m.storeRefCount (m.self.local_.ref_count + 1)) hlive
        (by simp only [storeRefCount_refCount]; omega) hrest
      intro k
      have := hhi (k + 1)
      rw [take_succ_cons_count, take_succ_cons_count] at this
      simp at this
      simp only [storeRefCount_refCount]
      omega
    | decr =>
      have hw : wrapInt (m.self.local_.ref_count - 1) = m.self.local_.ref_count - 1 :=
        wrapInt_of_inRange _ (by unfold INT_MIN; omega) (by omega)
      by_cases hone : m.self.local_.ref_count = 1
      · have hstep : applyOp RefOp.decr m
            = Result.ret () (releaseBlock (m.storeRefCount 0)) := by
          simp only [applyOp, DecrRef_to_zero m (by omega) (by rw [hw]; omega)]
        rw [hstep]
        simp only
        rw [runUntilRelease_of_released rest _ (released_releaseBlock _)]
        refine ⟨rfl, Or.inr ⟨released_releaseBlock _, ?_⟩⟩
        show (releaseBlock (m.storeRefCount 0)).self.local_.ref_count = 0
        rw [refCount_releaseBlock]
        rfl
      · have hstep : applyOp RefOp.decr m
            = Result.ret () (m.storeRefCount (m.self.local_.ref_count - 1)) := by
          have hd := DecrRef_to_nonzero m (by omega) (by rw [hw]; omega)
          rw [hw] at hd
          simp only [applyOp, hd]
        rw [hstep]
        apply ih (m.storeRefCount (m.self.local_.ref_count - 1)) hlive
          (by simp only [storeRefCount_refCount]; omega) hrest
        intro k
        have := hhi (k + 1)
        rw [take_succ_cons_count, take_succ_cons_count] at this
        simp at this
        simp only [storeRefCount_refCount]
        omega

/-- Claim C4, as stated, fails: after `setHeader` with an initial count of 1,
the single call `DropRef` leaves a count of zero, so no longer positive,
while `Free` has not been called. -/
theorem DropRef_zero_without_release :
    GetRefCount (runUntilRelease [RefOp.drop]
        (setHeader 1 8 120 (sampleMachine 0 (some sampleSegments)))).machine = 0 ∧
    (runUntilRelease [RefOp.drop]
        (setHeader 1 8 120 (sampleMachine 0 (some sampleSegments)))).machine.released = false ∧
    ¬ ((runUntilRelease [RefOp.drop]
          (setHeader 1 8 120 (sampleMachine 0 (some sampleSegments)))).machine.released = true ↔
       ¬ 0 < GetRefCount (runUntilRelease [RefOp.drop]
          (setHeader 1 8 120 (sampleMachine 0 (some sampleSegments)))).machine) := by
  decide

/-- Claim C4, amended. For a live allocation initialised by `setHeader` with
an initial count of at least 1, at every point `k` of every sequence of
`IncrRef`, `DropRef` and `DecrRef` calls stopped at the first release: if the
allocation has been released, its count is zero. When the sequence has no
`DropRef` and the count stays within `int` range, no assertion fails and the
allocation has been released if and only if its count is no longer
positive. -/
theorem released_iff_count_not_positive (m0 : Machine) (init : Int) (meta_size data_size : Nat)
    (ops : List RefOp) (k : Nat) (hlive : m0.released = false) (hinit : 1 ≤ init) :
    ((runUntilRelease (ops.take k) (setHeader init meta_size data_size m0)).machine.released = true →
      GetRefCount (runUntilRelease (ops.take k)
        (setHeader init meta_size data_size m0)).machine = 0) ∧
    (RefOp.drop ∉ ops →
      (∀ j, init + ((ops.take j).count RefOp.incr : Int)
              - ((ops.take j).count RefOp.decr : Int) ≤ INT_MAX) →
      (runUntilRelease (ops.take k) (setHeader init meta_size data_size m0)).failed = false ∧
      ((runUntilRelease (ops.take k) (setHeader init meta_size data_size m0)).machine.released = true ↔
        ¬ 0 < GetRefCount (runUntilRelease (ops.take k)
          (setHeader init meta_size data_size m0)).machine)) := by
  have hlive1 : (setHeader init meta_size data_size m0).released = false := hlive
  refine ⟨runUntilRelease_released_count (ops.take k) _ hlive1, ?_⟩
  intro hnd hrange
  have h0 := hrange 0
  simp only [List.take_zero, List.count_nil, Nat.cast_zero] at h0
  have hrc : (setHeader init meta_size data_size m0).self.local_.ref_count = init := by
    show wrapInt init = init
    exact wrapInt_of_inRange _ (by unfold INT_MIN; omega) (by omega)
  have h := runUntilRelease_live_or_zero (ops.take k) (setHeader init meta_size data_size m0)
    hlive1 (by rw [hrc]; exact hinit) (fun hp => hnd (List.mem_of_mem_take hp))
    (fun j => by rw [List.take_take, hrc]; exact hrange (min j k))
  refine ⟨h.1, ?_⟩
  rcases h.2 with ⟨hl, hc⟩ | ⟨hr, hc⟩
  · rw [hl]
    constructor
    · intro hf; exact absurd hf (by decide)
    · intro hn; omega
  · rw [hr, hc]
    simp

/-- Instance of the amended claim C4: after `IncrRef`, `DecrRef`, `DecrRef`
on an initial count of 1 the allocation is released and its count is zero. -/
theorem released_iff_count_not_positive_witness :
    (runUntilRelease ([RefOp.incr, RefOp.decr, RefOp.decr, RefOp.incr].take 3)
        (setHeader 1 8 120 (sampleMachine 0 (some sampleSegments)))).machine.released = true ∧
    GetRefCount (runUntilRelease ([RefOp.incr, RefOp.decr, RefOp.decr, RefOp.incr].take 3)
        (setHeader 1 8 120 (sampleMachine 0 (some sampleSegments)))).machine = 0 ∧
    (runUntilRelease ([RefOp.incr, RefOp.decr, RefOp.decr, RefOp.incr].take 3)
        (setHeader 1 8 120 (sampleMachine 0 (some sampleSegments)))).failed = false :=
  have h := released_iff_count_not_positive (sampleMachine 0 (some sampleSegments)) 1 8 120
    [RefOp.incr, RefOp.decr, RefOp.decr, RefOp.incr] 3 (by decide) (by decide)
  have h2 := h.2 (by decide)
    (by intro j; rcases j with _ | _ | _ | _ | _ | j <;> simp [INT_MAX])
  ⟨by decide, h.1 (by decide), h2.1⟩

/-- One call of `DecrRef` stepped alone through its four steps ends in the
state, and with the value, of the member function `DecrRef`. -/
theorem callStep_four (m : Machine) :
    (runSchedule [false, false, false, false] (TwoCalls.init m)).shared = (DecrRef m).machine ∧
    ((runSchedule [false, false, false, false] (TwoCalls.init m)).first.pc = DecrRefPC.aborted
      ↔ (DecrRef m).failed = true) ∧
    ((runSchedule [false, false, false, false] (TwoCalls.init m)).first.pc = DecrRefPC.returned →
      (DecrRef m).value?
        = some (runSchedule [false, false, false, false] (TwoCalls.init m)).first.num_left) := by
  by_cases hpos : 0 < m.self.local_.ref_count
  · by_cases hz : wrapInt (m.self.local_.ref_count - 1) = 0
    · rw [DecrRef_to_zero m hpos hz]
      simp [runSchedule, TwoCalls.step, TwoCalls.init, DecrRefCall.start, callStep, hpos, hz,
        storeRefCount_refCount, Result.machine, Result.failed, Result.value?]
    · rw [DecrRef_to_nonzero m hpos hz]
      simp [runSchedule, TwoCalls.step, TwoCalls.init, DecrRefCall.start, callStep, hpos, hz,
        storeRefCount_refCount, Result.machine, Result.failed, Result.value?]
  · rw [DecrRef_nonpos m (by omega)]
    simp [runSchedule, TwoCalls.step, TwoCalls.init, DecrRefCall.start, callStep, hpos,
      Result.machine, Result.failed, Result.value?]

/-- Claim C5 on the code. Two concurrent calls of `DecrRef` on a count of 2,
interleaved so that both decrements come before both loads of `num_left`:
both calls return having seen zero, `Free` is called twice and every cleanup
function is called twice. When the first call ends before the second starts,
one call sees zero and `Free` is called once. -/
theorem DecrRef_race_releases_twice :
    (runSchedule alternatingSchedule
        (TwoCalls.init (sampleMachine 2 (some sampleSegments)))).first.observedZero = true ∧
    (runSchedule alternatingSchedule
        (TwoCalls.init (sampleMachine 2 (some sampleSegments)))).second.observedZero = true ∧
    (runSchedule alternatingSchedule
        (TwoCalls.init (sampleMachine 2 (some sampleSegments)))).shared.trace
      = [Effect.cleanup 500 100, Effect.cleanup 501 300, Effect.free 900,
         Effect.cleanup 500 100, Effect.cleanup 501 300, Effect.free 900] ∧
    numFree (runSchedule alternatingSchedule
        (TwoCalls.init (sampleMachine 2 (some sampleSegments)))).shared.trace = 2 ∧
    numFree (runSchedule sequentialSchedule
        (TwoCalls.init (sampleMachine 2 (some sampleSegments)))).shared.trace = 1 := by
  decide

end lunasa

namespace OpInterjobPing

/-- Claim C10. Every instance reports the class-wide id and name: for any two
instances, whatever their state and other members, `getOpID` is `op_id` and
`getOpName` is `op_name`, so both agree between the two instances. -/
theorem getOpID_getOpName_classwide (cls : Statics) (a b : Instance) :
    getOpID cls a = cls.op_id ∧ getOpName cls a = cls.op_name ∧
    getOpID cls a = getOpID cls b ∧ getOpName cls a = getOpName cls b :=
  ⟨rfl, rfl, rfl, rfl⟩

end OpInterjobPing
